import Mathlib

/-!
Verification of `shared-take-once` (module `non_sync`): a reference-counted
heap cell whose sign-encoded counter tracks both the number of live handles
(the magnitude) and occupancy of the value slot (the sign).  The Lean
definitions below are a shallow embedding of `src/lib.rs`: each Rust
operation becomes an executable function on the heap block `Inner`, and a
small trace semantics (`Sys`, `step`, `runFrom`) tracks live handles, the
heap allocation, values handed out by `take`, and destructor runs.
-/

namespace NonSync

/-- The heap block `Inner<T>` from the source: a signed reference count
(positive iff the slot is occupied) and the `MaybeUninit<T>` slot, modelled
as `Option T` where `some v` means the slot holds an initialized `v` and
`none` means the value has been moved out. -/
structure Inner (T : Type) where
  ref_count : Int
  value : Option T
deriving Repr, DecidableEq

/-- Ways an operation of the source can fail to return normally:
`panicZero` models the `unreachable!` and `assert` branches taken when the
reference count is observed to be zero; `ubUninitRead` models
`assume_init_read` on a slot whose value was already moved out;
`noHandle` and `useAfterFree` are model-level framing errors, raised when a
trace tries to run an operation with no live handle, or through a handle
whose cell has already been freed. -/
inductive Fault where
  | panicZero
  | ubUninitRead
  | noHandle
  | useAfterFree
deriving Repr, DecidableEq

/-- Outcome of releasing one handle (the tail of `Drop::drop`): either the
cell stays allocated with an updated counter, or the heap block is freed;
`destroyed = some v` records that the destructor of the stored value `v`
ran as part of freeing. -/
inductive DropEffect (T : Type) where
  | alive (inner : Inner T)
  | freed (destroyed : Option T)
deriving Repr, DecidableEq

/-- The value (if any) whose destructor an effect runs. -/
def DropEffect.destroyed {T : Type} : DropEffect T → Option T
  | .alive _ => none
  | .freed d => d

/-- `SharedTakeOnce::new`: allocate a cell with `ref_count = 1` and the
slot initialized to `value`. -/
def new {T : Type} (value : T) : Inner T :=
  ⟨1, some value⟩

/-- `Drop for SharedTakeOnce`: match on the reference count exactly as the
source does.  `n > 1`: decrement.  `1`: read the value out, run its
destructor, free the box.  `-1`: free the box.  `n < -1`: increment toward
zero.  `0`: the `assert_eq` / `unreachable` branch, a panic. -/
def drop {T : Type} (inner : Inner T) : Except Fault (DropEffect T) :=
  if 1 < inner.ref_count then
    .ok (.alive ⟨inner.ref_count - 1, inner.value⟩)
  else if inner.ref_count = 1 then
    match inner.value with
    | some v => .ok (.freed (some v))
    | none => .error .ubUninitRead
  else if inner.ref_count = -1 then
    .ok (.freed none)
  else if inner.ref_count < -1 then
    .ok (.alive ⟨inner.ref_count + 1, inner.value⟩)
  else
    .error .panicZero

/-- `SharedTakeOnce::take`: if the count is positive, move the value out of
the slot with `assume_init_read` (destructor suppressed), negate the count,
and return the value; if negative, return `none`; if zero, the
`unreachable!` panic.  In both returning branches `self` is then dropped,
which is the `drop` applied after the occupancy decision. -/
def take {T : Type} (inner : Inner T) : Except Fault (Option T × DropEffect T) :=
  if 0 < inner.ref_count then
    match inner.value with
    | some v =>
        (drop ⟨-inner.ref_count, none⟩).map (fun e => (some v, e))
    | none => .error .ubUninitRead
  else if inner.ref_count < 0 then
    (drop inner).map (fun e => (none, e))
  else
    .error .panicZero

/-- `Clone for SharedTakeOnce`: `assert_ne!(ref_count, 0)` (a panic when it
fails), then `ref_count += ref_count.signum()`; the new handle points at
the same cell. -/
def clone {T : Type} (inner : Inner T) : Except Fault (Inner T) :=
  if inner.ref_count = 0 then
    .error .panicZero
  else
    .ok ⟨inner.ref_count + inner.ref_count.sign, inner.value⟩

/-- Whole-lifetime trace state for one cell and its handles: the heap block
(`none` once freed), the number of live handles, the list of results every
`take` call returned (in order), the values destroyed by the cell itself
while freeing, and how many times the heap block was freed. -/
structure Sys (T : Type) where
  cell : Option (Inner T)
  handles : Nat
  takes : List (Option T)
  destroyed : List T
  frees : Nat
deriving Repr, DecidableEq

/-- State right after `new value`: one handle, a freshly allocated occupied
cell, nothing taken, nothing destroyed, nothing freed. -/
def initSys {T : Type} (value : T) : Sys T :=
  ⟨some (new value), 1, [], [], 0⟩

/-- The three operations a live handle can perform. -/
inductive Op where
  | clone
  | take
  | drop
deriving Repr, DecidableEq

/-- Fold a drop effect into the trace state: one handle is gone, and the
cell is updated or freed (recording any destructor run). -/
def applyDropEffect {T : Type} (s : Sys T) : DropEffect T → Sys T
  | .alive inner => ⟨some inner, s.handles - 1, s.takes, s.destroyed, s.frees⟩
  | .freed d =>
      ⟨none, s.handles - 1, s.takes, s.destroyed ++ d.toList, s.frees + 1⟩

/-- One operation performed through one live handle.  Running an operation
with no live handle is the model-level `noHandle` error; dereferencing a
freed cell is `useAfterFree`.  Otherwise the corresponding source function
runs on the heap block. -/
def step {T : Type} (s : Sys T) (op : Op) : Except Fault (Sys T) :=
  if s.handles = 0 then .error .noHandle
  else
    match s.cell with
    | none => .error .useAfterFree
    | some inner =>
      match op with
      | .clone =>
          (clone inner).map (fun i => ⟨some i, s.handles + 1, s.takes, s.destroyed, s.frees⟩)
      | .take =>
          (take inner).map (fun r =>
            let s2 := applyDropEffect s r.2
            ⟨s2.cell, s2.handles, s2.takes ++ [r.1], s2.destroyed, s2.frees⟩)
      | .drop =>
          (drop inner).map (applyDropEffect s)

/-- Run a list of operations from a given state, stopping at the first
fault. -/
def runFrom {T : Type} (s : Sys T) : List Op → Except Fault (Sys T)
  | [] => .ok s
  | op :: ops =>
      match step s op with
      | .error e => .error e
      | .ok s2 => runFrom s2 ops

/-- Run a list of operations on a freshly constructed cell. -/
def run {T : Type} (value : T) (ops : List Op) : Except Fault (Sys T) :=
  runFrom (initSys value) ops

/-! Branch equations for the three operations. -/

theorem except_map_ok {E A B : Type} (f : A → B) (x : A) :
    (Except.ok x : Except E A).map f = .ok (f x) := rfl

theorem drop_gt_one {T : Type} (inner : Inner T) (h : 1 < inner.ref_count) :
    drop inner = .ok (.alive ⟨inner.ref_count - 1, inner.value⟩) := by
  unfold drop
  rw [if_pos h]

theorem drop_one {T : Type} (inner : Inner T) (x : T)
    (h : inner.ref_count = 1) (hv : inner.value = some x) :
    drop inner = .ok (.freed (some x)) := by
  unfold drop
  rw [if_neg (by omega), if_pos h, hv]

theorem drop_neg_one {T : Type} (inner : Inner T) (h : inner.ref_count = -1) :
    drop inner = .ok (.freed none) := by
  unfold drop
  rw [if_neg (by omega), if_neg (by omega), if_pos h]

theorem drop_lt_neg_one {T : Type} (inner : Inner T) (h : inner.ref_count < -1) :
    drop inner = .ok (.alive ⟨inner.ref_count + 1, inner.value⟩) := by
  unfold drop
  rw [if_neg (by omega), if_neg (by omega), if_neg (by omega), if_pos h]

theorem drop_zero {T : Type} (inner : Inner T) (h : inner.ref_count = 0) :
    drop inner = .error .panicZero := by
  unfold drop
  rw [if_neg (by omega), if_neg (by omega), if_neg (by omega), if_neg (by omega)]

theorem take_pos {T : Type} (inner : Inner T) (x : T)
    (h : 0 < inner.ref_count) (hv : inner.value = some x) :
    take inner = (drop ⟨-inner.ref_count, none⟩).map (fun e => (some x, e)) := by
  unfold take
  rw [if_pos h, hv]

theorem take_neg {T : Type} (inner : Inner T) (h : inner.ref_count < 0) :
    take inner = (drop inner).map (fun e => ((none : Option T), e)) := by
  unfold take
  rw [if_neg (by omega), if_pos h]

theorem take_zero {T : Type} (inner : Inner T) (h : inner.ref_count = 0) :
    take inner = .error .panicZero := by
  unfold take
  rw [if_neg (by omega), if_neg (by omega)]

theorem clone_ne_zero {T : Type} (inner : Inner T) (h : inner.ref_count ≠ 0) :
    clone inner = .ok ⟨inner.ref_count + inner.ref_count.sign, inner.value⟩ := by
  unfold clone
  rw [if_neg h]

theorem clone_zero {T : Type} (inner : Inner T) (h : inner.ref_count = 0) :
    clone inner = .error .panicZero := by
  unfold clone
  rw [if_pos h]

/-! The reachable-state invariant and its preservation. -/

/-- States reachable from `initSys v`: while the cell is allocated, the
magnitude of the counter equals the number of live handles, nothing has
been freed, and the sign tells the story of the slot — positive: the slot
still holds `v`, no take has returned it and nothing was destroyed;
negative: the slot was moved out, exactly the first take returned `v` and
every later take returned `none`.  Once the cell is freed there are no
handles left, the block was freed exactly once, and either one take
returned `v` (the rest `none`) and the cell destroyed nothing, or no take
ever ran and the cell destroyed `v` itself. -/
def Inv {T : Type} (v : T) (s : Sys T) : Prop :=
  (∃ inner, s.cell = some inner ∧ inner.ref_count.natAbs = s.handles ∧ s.frees = 0 ∧
    ((0 < inner.ref_count ∧ inner.value = some v ∧ s.takes = [] ∧ s.destroyed = []) ∨
     (inner.ref_count < 0 ∧ inner.value = none ∧
       (∃ k, s.takes = some v :: List.replicate k none) ∧ s.destroyed = []))) ∨
  (s.cell = none ∧ s.handles = 0 ∧ s.frees = 1 ∧
    (((∃ k, s.takes = some v :: List.replicate k none) ∧ s.destroyed = []) ∨
     (s.takes = [] ∧ s.destroyed = [v])))

theorem inv_init {T : Type} (v : T) : Inv v (initSys v) := by
  left
  refine ⟨new v, rfl, rfl, rfl, Or.inl ⟨?_, rfl, rfl, rfl⟩⟩
  show (0 : Int) < 1
  omega

/-! Outcome of one `step` in each situation a reachable state allows. -/

theorem step_none {T : Type} (s : Sys T) (op : Op) (hh : s.handles = 0) :
    step s op = .error .noHandle := by
  unfold step
  rw [if_pos hh]

theorem step_clone_eq {T : Type} (s : Sys T) (inner : Inner T)
    (hh : s.handles ≠ 0) (hc : s.cell = some inner) (hne : inner.ref_count ≠ 0) :
    step s .clone = .ok ⟨some ⟨inner.ref_count + inner.ref_count.sign, inner.value⟩,
      s.handles + 1, s.takes, s.destroyed, s.frees⟩ := by
  unfold step
  rw [if_neg hh, hc]
  show (clone inner).map (fun i =>
    (⟨some i, s.handles + 1, s.takes, s.destroyed, s.frees⟩ : Sys T)) = _
  rw [clone_ne_zero inner hne]
  rfl

theorem step_drop_gt_one {T : Type} (s : Sys T) (inner : Inner T)
    (hh : s.handles ≠ 0) (hc : s.cell = some inner) (h : 1 < inner.ref_count) :
    step s .drop = .ok ⟨some ⟨inner.ref_count - 1, inner.value⟩,
      s.handles - 1, s.takes, s.destroyed, s.frees⟩ := by
  unfold step
  rw [if_neg hh, hc]
  show (drop inner).map (applyDropEffect s) = _
  rw [drop_gt_one inner h]
  rfl

theorem step_drop_one {T : Type} (s : Sys T) (inner : Inner T) (x : T)
    (hh : s.handles ≠ 0) (hc : s.cell = some inner)
    (h : inner.ref_count = 1) (hv : inner.value = some x) :
    step s .drop = .ok ⟨none, s.handles - 1, s.takes, s.destroyed ++ [x], s.frees + 1⟩ := by
  unfold step
  rw [if_neg hh, hc]
  show (drop inner).map (applyDropEffect s) = _
  rw [drop_one inner x h hv]
  rfl

theorem step_drop_neg_one {T : Type} (s : Sys T) (inner : Inner T)
    (hh : s.handles ≠ 0) (hc : s.cell = some inner) (h : inner.ref_count = -1) :
    step s .drop = .ok ⟨none, s.handles - 1, s.takes, s.destroyed, s.frees + 1⟩ := by
  unfold step
  rw [if_neg hh, hc]
  show (drop inner).map (applyDropEffect s) = _
  rw [drop_neg_one inner h]
  simp [except_map_ok, applyDropEffect, Option.toList]

theorem step_drop_lt_neg_one {T : Type} (s : Sys T) (inner : Inner T)
    (hh : s.handles ≠ 0) (hc : s.cell = some inner) (h : inner.ref_count < -1) :
    step s .drop = .ok ⟨some ⟨inner.ref_count + 1, inner.value⟩,
      s.handles - 1, s.takes, s.destroyed, s.frees⟩ := by
  unfold step
  rw [if_neg hh, hc]
  show (drop inner).map (applyDropEffect s) = _
  rw [drop_lt_neg_one inner h]
  rfl

theorem step_take_one {T : Type} (s : Sys T) (inner : Inner T) (x : T)
    (hh : s.handles ≠ 0) (hc : s.cell = some inner)
    (h : inner.ref_count = 1) (hv : inner.value = some x) :
    step s .take = .ok ⟨none, s.handles - 1, s.takes ++ [some x], s.destroyed, s.frees + 1⟩ := by
  unfold step
  rw [if_neg hh, hc]
  show (take inner).map (fun r =>
    let s2 := applyDropEffect s r.2
    (⟨s2.cell, s2.handles, s2.takes ++ [r.1], s2.destroyed, s2.frees⟩ : Sys T)) = _
  rw [take_pos inner x (by omega) hv, drop_neg_one _ (by show -inner.ref_count = -1; omega)]
  simp [except_map_ok, applyDropEffect, Option.toList]

theorem step_take_gt_one {T : Type} (s : Sys T) (inner : Inner T) (x : T)
    (hh : s.handles ≠ 0) (hc : s.cell = some inner)
    (h : 1 < inner.ref_count) (hv : inner.value = some x) :
    step s .take = .ok ⟨some ⟨-inner.ref_count + 1, none⟩,
      s.handles - 1, s.takes ++ [some x], s.destroyed, s.frees⟩ := by
  unfold step
  rw [if_neg hh, hc]
  show (take inner).map (fun r =>
    let s2 := applyDropEffect s r.2
    (⟨s2.cell, s2.handles, s2.takes ++ [r.1], s2.destroyed, s2.frees⟩ : Sys T)) = _
  rw [take_pos inner x (by omega) hv,
    drop_lt_neg_one _ (by show -inner.ref_count < -1; omega)]
  rfl

theorem step_take_neg_one {T : Type} (s : Sys T) (inner : Inner T)
    (hh : s.handles ≠ 0) (hc : s.cell = some inner) (h : inner.ref_count = -1) :
    step s .take = .ok ⟨none, s.handles - 1, s.takes ++ [none], s.destroyed, s.frees + 1⟩ := by
  unfold step
  rw [if_neg hh, hc]
  show (take inner).map (fun r =>
    let s2 := applyDropEffect s r.2
    (⟨s2.cell, s2.handles, s2.takes ++ [r.1], s2.destroyed, s2.frees⟩ : Sys T)) = _
  rw [take_neg inner (by omega), drop_neg_one inner h]
  simp [except_map_ok, applyDropEffect, Option.toList]

theorem step_take_lt_neg_one {T : Type} (s : Sys T) (inner : Inner T)
    (hh : s.handles ≠ 0) (hc : s.cell = some inner) (h : inner.ref_count < -1) :
    step s .take = .ok ⟨some ⟨inner.ref_count + 1, inner.value⟩,
      s.handles - 1, s.takes ++ [none], s.destroyed, s.frees⟩ := by
  unfold step
  rw [if_neg hh, hc]
  show (take inner).map (fun r =>
    let s2 := applyDropEffect s r.2
    (⟨s2.cell, s2.handles, s2.takes ++ [r.1], s2.destroyed, s2.frees⟩ : Sys T)) = _
  rw [take_neg inner (by omega), drop_lt_neg_one inner h]
  rfl

theorem step_preserves {T : Type} (v : T) (s : Sys T) (op : Op) (hInv : Inv v s) :
    (s.handles = 0 ∧ step s op = .error .noHandle) ∨
    (∃ s2, step s op = .ok s2 ∧ Inv v s2) := by
  rcases hInv with ⟨inner, hcell, habs, hfrees, hdisj⟩ | ⟨hcell, hh, hfrees, hdisj⟩
  · -- the cell is allocated and some handle is live
    have hne : inner.ref_count ≠ 0 := by rcases hdisj with ⟨h, _⟩ | ⟨h, _⟩ <;> omega
    have hh : s.handles ≠ 0 := by omega
    right
    rcases hdisj with ⟨hpos, hval, htakes, hdes⟩ | ⟨hneg, hval, ⟨k, htakes⟩, hdes⟩
    · -- positive counter: slot occupied
      match op with
      | .clone =>
          refine ⟨_, step_clone_eq s inner hh hcell hne, Or.inl ⟨_, rfl, ?_, hfrees,
            Or.inl ⟨?_, hval, htakes, hdes⟩⟩⟩
          · show (inner.ref_count + inner.ref_count.sign).natAbs = s.handles + 1
            rw [Int.sign_eq_one_iff_pos.mpr hpos]
            omega
          · show 0 < inner.ref_count + inner.ref_count.sign
            rw [Int.sign_eq_one_iff_pos.mpr hpos]
            omega
      | .take =>
          by_cases h1 : inner.ref_count = 1
          · refine ⟨_, step_take_one s inner v hh hcell h1 hval, Or.inr
              ⟨rfl, by show s.handles - 1 = 0; omega, by show s.frees + 1 = 1; omega,
               Or.inl ⟨⟨0, by rw [htakes]; rfl⟩, hdes⟩⟩⟩
          · refine ⟨_, step_take_gt_one s inner v hh hcell (by omega) hval, Or.inl
              ⟨_, rfl, by show (-inner.ref_count + 1).natAbs = s.handles - 1; omega, hfrees,
               Or.inr ⟨by show -inner.ref_count + 1 < 0; omega, rfl,
                 ⟨0, by rw [htakes]; rfl⟩, hdes⟩⟩⟩
      | .drop =>
          by_cases h1 : inner.ref_count = 1
          · refine ⟨_, step_drop_one s inner v hh hcell h1 hval, Or.inr
              ⟨rfl, by show s.handles - 1 = 0; omega, by show s.frees + 1 = 1; omega,
               Or.inr ⟨htakes, by rw [hdes]; rfl⟩⟩⟩
          · refine ⟨_, step_drop_gt_one s inner hh hcell (by omega), Or.inl
              ⟨_, rfl, by show (inner.ref_count - 1).natAbs = s.handles - 1; omega, hfrees,
               Or.inl ⟨by show 0 < inner.ref_count - 1; omega, hval, htakes, hdes⟩⟩⟩
    · -- negative counter: slot already moved out
      match op with
      | .clone =>
          refine ⟨_, step_clone_eq s inner hh hcell hne, Or.inl ⟨_, rfl, ?_, hfrees,
            Or.inr ⟨?_, hval, ⟨k, htakes⟩, hdes⟩⟩⟩
          · show (inner.ref_count + inner.ref_count.sign).natAbs = s.handles + 1
            rw [Int.sign_eq_neg_one_iff_neg.mpr hneg]
            omega
          · show inner.ref_count + inner.ref_count.sign < 0
            rw [Int.sign_eq_neg_one_iff_neg.mpr hneg]
            omega
      | .take =>
          by_cases h1 : inner.ref_count = -1
          · refine ⟨_, step_take_neg_one s inner hh hcell h1, Or.inr
              ⟨rfl, by show s.handles - 1 = 0; omega, by show s.frees + 1 = 1; omega,
               Or.inl ⟨⟨k + 1, by rw [htakes, List.replicate_succ']; rfl⟩, hdes⟩⟩⟩
          · refine ⟨_, step_take_lt_neg_one s inner hh hcell (by omega), Or.inl
              ⟨_, rfl, by show (inner.ref_count + 1).natAbs = s.handles - 1; omega, hfrees,
               Or.inr ⟨by show inner.ref_count + 1 < 0; omega, hval,
                 ⟨k + 1, by rw [htakes, List.replicate_succ']; rfl⟩, hdes⟩⟩⟩
      | .drop =>
          by_cases h1 : inner.ref_count = -1
          · refine ⟨_, step_drop_neg_one s inner hh hcell h1, Or.inr
              ⟨rfl, by show s.handles - 1 = 0; omega, by show s.frees + 1 = 1; omega,
               Or.inl ⟨⟨k, htakes⟩, hdes⟩⟩⟩
          · refine ⟨_, step_drop_lt_neg_one s inner hh hcell (by omega), Or.inl
              ⟨_, rfl, by show (inner.ref_count + 1).natAbs = s.handles - 1; omega, hfrees,
               Or.inr ⟨by show inner.ref_count + 1 < 0; omega, hval, ⟨k, htakes⟩, hdes⟩⟩⟩
  · -- the cell is already freed; no handles remain, so any step is `noHandle`
    exact Or.inl ⟨hh, step_none s op hh⟩

theorem runFrom_inv {T : Type} (v : T) (ops : List Op) (s0 s : Sys T)
    (h0 : Inv v s0) (h : runFrom s0 ops = .ok s) : Inv v s := by
  induction ops generalizing s0 with
  | nil =>
      unfold runFrom at h
      cases h
      exact h0
  | cons op ops ih =>
      unfold runFrom at h
      rcases step_preserves v s0 op h0 with ⟨_, herr⟩ | ⟨s2, hok, hinv2⟩
      · rw [herr] at h
        exact absurd h (by simp)
      · rw [hok] at h
        exact ih s2 hinv2 h

theorem run_inv {T : Type} (v : T) (ops : List Op) (s : Sys T)
    (h : run v ops = .ok s) : Inv v s :=
  runFrom_inv v ops (initSys v) s (inv_init v) h

theorem filterMap_id_replicate_none {T : Type} (k : Nat) :
    (List.replicate k (none : Option T)).filterMap id = [] := by
  induction k with
  | zero => rfl
  | succ k ih => rw [List.replicate_succ]; simp [ih]

end NonSync

namespace Sync

open NonSync

/-- Modelled from the spec: the `sync` variant of `SharedTakeOnce` is
declared by the crate doc comment but its code is not among the given
sources.  Per the spec (section 5), the sign flip plus value read in its
`take` is one atomic read-modify-write on the sign-carrying counter: the
caller that observes the pre-flip positive state moves the value out and
negates the counter; a caller that observes a negative state gets `none`
and leaves the cell unchanged. -/
def takeRMW {T : Type} (inner : Inner T) : Option T × Inner T :=
  if 0 < inner.ref_count then (inner.value, ⟨-inner.ref_count, none⟩)
  else (none, inner)

/-- Modelled from the spec: the atomic release of one unit of reference
count when a handle is consumed or dropped in the `sync` variant; when the
magnitude was 1 the cell is freed (`none`). -/
def release {T : Type} (inner : Inner T) : Option (Inner T) :=
  if inner.ref_count.natAbs = 1 then none
  else some ⟨inner.ref_count - inner.ref_count.sign, inner.value⟩

/-- Execution state for two threads that each consume one handle of a
shared cell by calling `take`: the cell (`none` once freed), each thread
program counter (0 = before its RMW, 1 = before its release, 2 = done),
each thread result, and how many times the cell was freed. -/
structure TwoThreads (T : Type) where
  cell : Option (Inner T)
  pc1 : Nat
  pc2 : Nat
  res1 : Option T
  res2 : Option T
  frees : Nat
deriving Repr, DecidableEq

/-- Start state: one cell holding `v` with two handles, one per thread. -/
def initTwo {T : Type} (v : T) : TwoThreads T :=
  ⟨some ⟨2, some v⟩, 0, 0, none, none, 0⟩

/-- One atomic step of thread 1 (`true`) or thread 2 (`false`); `none`
when the scheduled thread is already done, or the cell is gone while the
thread still has a step to run. -/
def stepThread {T : Type} (s : TwoThreads T) (t : Bool) : Option (TwoThreads T) :=
  match s.cell with
  | none => none
  | some inner =>
    if t then
      match s.pc1 with
      | 0 => some ⟨some (takeRMW inner).2, 1, s.pc2, (takeRMW inner).1, s.res2, s.frees⟩
      | 1 =>
          match release inner with
          | some i => some ⟨some i, 2, s.pc2, s.res1, s.res2, s.frees⟩
          | none => some ⟨none, 2, s.pc2, s.res1, s.res2, s.frees + 1⟩
      | _ => none
    else
      match s.pc2 with
      | 0 => some ⟨some (takeRMW inner).2, s.pc1, 1, s.res1, (takeRMW inner).1, s.frees⟩
      | 1 =>
          match release inner with
          | some i => some ⟨some i, s.pc1, 2, s.res1, s.res2, s.frees⟩
          | none => some ⟨none, s.pc1, 2, s.res1, s.res2, s.frees + 1⟩
      | _ => none

/-- Run both threads under an interleaving: each `true` in the schedule is
one atomic step of thread 1, each `false` one atomic step of thread 2. -/
def exec {T : Type} (v : T) : List Bool → Option (TwoThreads T) → Option (TwoThreads T)
  | [], s => s
  | t :: sched, s =>
      match s with
      | none => none
      | some st => exec v sched (stepThread st t)

/-- Run a complete two-thread schedule from the start state. -/
def execFull {T : Type} (v : T) (sched : List Bool) : Option (TwoThreads T) :=
  exec v sched (some (initTwo v))

end Sync

namespace NonSync

/-! The claims. -/

/-- C1: across any interleaving of clone, take and drop operations on the
handles of one freshly constructed cell, at most one `take` call ever
returns the value, the value it returns is exactly the one passed to
`new`, and every other `take` call returns `none`. -/
theorem c1_at_most_once_extraction {T : Type} (v : T) (ops : List Op) (s : Sys T)
    (h : run v ops = .ok s) :
    s.takes.filterMap id = [] ∨ s.takes.filterMap id = [v] := by
  rcases run_inv v ops s h with ⟨inner, hcell, habs, hfrees, hdisj⟩ | ⟨hcell, hh, hfrees, hdisj⟩
  · rcases hdisj with ⟨_, _, htakes, _⟩ | ⟨_, _, ⟨k, htakes⟩, _⟩
    · left
      rw [htakes]
      rfl
    · right
      rw [htakes]
      simp [filterMap_id_replicate_none k]
  · rcases hdisj with ⟨⟨k, htakes⟩, _⟩ | ⟨htakes, _⟩
    · right
      rw [htakes]
      simp [filterMap_id_replicate_none k]
    · left
      rw [htakes]
      rfl

/-- C1 witness: clone once, take twice; the first take yields 7, the
second yields none. -/
theorem c1_witness :
    run 7 [Op.clone, Op.take, Op.take] =
      .ok (⟨none, 0, [some 7, none], [], 1⟩ : Sys Nat) ∧
    (([some 7, none] : List (Option Nat)).filterMap id = [] ∨
      ([some 7, none] : List (Option Nat)).filterMap id = [7]) :=
  ⟨rfl, c1_at_most_once_extraction 7 [Op.clone, Op.take, Op.take]
    ⟨none, 0, [some 7, none], [], 1⟩ rfl⟩

/-- C2: on a positive counter, `take` moves the stored value out of the
slot (the returned value is the slot content, no destructor runs under a
take), negates the counter with magnitude unchanged, and returns the value
as present; on a negative counter it returns none and performs no mutation
before the handle-consumption step; in both cases the consumed handle
releases one unit of reference count exactly through the same `drop` code
ordinary destruction uses. -/
theorem c2_take_semantics {T : Type} (inner : Inner T) (x : T) :
    (0 < inner.ref_count → inner.value = some x →
      take inner = (drop ⟨-inner.ref_count, none⟩).map (fun e => (some x, e)) ∧
      ∀ y e, take inner = .ok (y, e) → y = some x ∧ e.destroyed = none) ∧
    (inner.ref_count < 0 →
      take inner = (drop inner).map (fun e => ((none : Option T), e))) := by
  constructor
  · intro hpos hval
    refine ⟨take_pos inner x hpos hval, ?_⟩
    intro y e htake
    by_cases h1 : inner.ref_count = 1
    · rw [take_pos inner x hpos hval,
        drop_neg_one _ (by show -inner.ref_count = -1; omega), except_map_ok] at htake
      cases htake
      exact ⟨rfl, rfl⟩
    · rw [take_pos inner x hpos hval,
        drop_lt_neg_one _ (by show -inner.ref_count < -1; omega), except_map_ok] at htake
      cases htake
      exact ⟨rfl, rfl⟩
  · intro hneg
    exact take_neg inner hneg

/-- C2 witness: a two-handle occupied cell at count 2 and an empty cell at
count -2. -/
theorem c2_witness :
    (take (⟨2, some 5⟩ : Inner Nat) = (drop ⟨-2, none⟩).map (fun e => (some 5, e)) ∧
      ∀ y e, take (⟨2, some 5⟩ : Inner Nat) = .ok (y, e) → y = some 5 ∧ e.destroyed = none) ∧
    take (⟨-2, some 9⟩ : Inner Nat) =
      (drop ⟨-2, some 9⟩).map (fun e => ((none : Option Nat), e)) :=
  ⟨(c2_take_semantics ⟨2, some 5⟩ 5).1 (by decide) rfl,
   (c2_take_semantics (⟨-2, some 9⟩ : Inner Nat) 9).2 (by decide)⟩

/-- C3: dropping a handle decrements the counter magnitude toward zero
when other handles remain; when the magnitude was 1 the cell is freed, and
the stored value destructor runs exactly when the counter was positive,
never when it was negative. -/
theorem c3_drop_semantics {T : Type} (inner : Inner T) (x : T) :
    (1 < inner.ref_count →
      drop inner = .ok (.alive ⟨inner.ref_count - 1, inner.value⟩)) ∧
    (inner.ref_count < -1 →
      drop inner = .ok (.alive ⟨inner.ref_count + 1, inner.value⟩)) ∧
    (inner.ref_count = 1 → inner.value = some x → drop inner = .ok (.freed (some x))) ∧
    (inner.ref_count = -1 → drop inner = .ok (.freed none)) :=
  ⟨drop_gt_one inner, drop_lt_neg_one inner, drop_one inner x, drop_neg_one inner⟩

/-- C3 witness: the four drop situations at counts 3, -3, 1 and -1. -/
theorem c3_witness :
    drop (⟨3, some 5⟩ : Inner Nat) = .ok (.alive ⟨2, some 5⟩) ∧
    drop (⟨-3, none⟩ : Inner Nat) = .ok (.alive ⟨-2, none⟩) ∧
    drop (⟨1, some 5⟩ : Inner Nat) = .ok (.freed (some 5)) ∧
    drop (⟨-1, none⟩ : Inner Nat) = .ok (.freed none) :=
  ⟨(c3_drop_semantics ⟨3, some 5⟩ 5).1 (by decide),
   (c3_drop_semantics (⟨-3, none⟩ : Inner Nat) 5).2.1 (by decide),
   (c3_drop_semantics ⟨1, some 5⟩ 5).2.2.1 rfl rfl,
   (c3_drop_semantics (⟨-1, none⟩ : Inner Nat) 5).2.2.2 rfl⟩

/-- C4: on a non-zero counter, `clone` never fails, adds one to the
counter magnitude in the direction of its sign, leaves the stored value
untouched, preserves the occupied/empty class, and at the trace level
returns one more live handle on the same cell. -/
theorem c4_clone_semantics {T : Type} (inner : Inner T) (h : inner.ref_count ≠ 0) :
    clone inner = .ok ⟨inner.ref_count + inner.ref_count.sign, inner.value⟩ ∧
    (inner.ref_count + inner.ref_count.sign).natAbs = inner.ref_count.natAbs + 1 ∧
    (0 < inner.ref_count + inner.ref_count.sign ↔ 0 < inner.ref_count) ∧
    ∀ s : Sys T, s.cell = some inner → s.handles ≠ 0 →
      step s .clone = .ok ⟨some ⟨inner.ref_count + inner.ref_count.sign, inner.value⟩,
        s.handles + 1, s.takes, s.destroyed, s.frees⟩ := by
  have hsig : inner.ref_count.sign = 1 ∨ inner.ref_count.sign = -1 := by
    rcases lt_or_gt_of_ne h with hlt | hgt
    · exact Or.inr (Int.sign_eq_neg_one_iff_neg.mpr hlt)
    · exact Or.inl (Int.sign_eq_one_iff_pos.mpr hgt)
  refine ⟨clone_ne_zero inner h, ?_, ?_, fun s hc hh => step_clone_eq s inner hh hc h⟩
  · rcases hsig with hs | hs
    · have hp := Int.sign_eq_one_iff_pos.mp hs
      rw [hs]
      omega
    · have hn := Int.sign_eq_neg_one_iff_neg.mp hs
      rw [hs]
      omega
  · rcases hsig with hs | hs
    · have hp := Int.sign_eq_one_iff_pos.mp hs
      rw [hs]
      omega
    · have hn := Int.sign_eq_neg_one_iff_neg.mp hs
      rw [hs]
      omega

/-- C4 witness: cloning the sole handle of an occupied cell. -/
theorem c4_witness :
    clone (⟨1, some 4⟩ : Inner Nat) = .ok ⟨2, some 4⟩ ∧
    ((1 : Int) + (1 : Int).sign).natAbs = (1 : Int).natAbs + 1 ∧
    (0 < (1 : Int) + (1 : Int).sign ↔ 0 < (1 : Int)) ∧
    step (initSys 4) .clone = .ok ⟨some ⟨2, some 4⟩, 2, [], [], 0⟩ := by
  have h := c4_clone_semantics (⟨1, some 4⟩ : Inner Nat) (by decide)
  exact ⟨h.1, h.2.1, h.2.2.1, h.2.2.2 (initSys 4) rfl (by decide)⟩

/-- C5: over the whole lifetime of a cell, the stored value is handed to a
caller by take or destroyed by the cell itself at most once in total, and
exactly once by the time the last handle is gone. -/
theorem c5_destructor_once {T : Type} (v : T) (ops : List Op) (s : Sys T)
    (h : run v ops = .ok s) :
    (s.takes.filterMap id).length + s.destroyed.length ≤ 1 ∧
    (s.handles = 0 → (s.takes.filterMap id).length + s.destroyed.length = 1) := by
  rcases run_inv v ops s h with ⟨inner, hcell, habs, hfrees, hdisj⟩ | ⟨hcell, hh, hfrees, hdisj⟩
  · rcases hdisj with ⟨hpos, _, htakes, hdes⟩ | ⟨hneg, _, ⟨k, htakes⟩, hdes⟩
    · rw [htakes, hdes]
      exact ⟨by simp, fun h0 => absurd habs (by omega)⟩
    · rw [htakes, hdes]
      have hfm : ((some v :: List.replicate k none).filterMap id) = [v] := by
        simp [filterMap_id_replicate_none (T := T) k]
      rw [hfm]
      exact ⟨by simp, fun h0 => absurd habs (by omega)⟩
  · rcases hdisj with ⟨⟨k, htakes⟩, hdes⟩ | ⟨htakes, hdes⟩
    · rw [htakes, hdes]
      have hfm : ((some v :: List.replicate k none).filterMap id) = [v] := by
        simp [filterMap_id_replicate_none (T := T) k]
      rw [hfm]
      exact ⟨by simp, fun _ => by simp⟩
    · rw [htakes, hdes]
      exact ⟨by simp, fun _ => by simp⟩

/-- C5 witness: dropping the only handle without taking destroys the
stored value exactly once. -/
theorem c5_witness :
    run 7 [Op.drop] = .ok (⟨none, 0, [], [7], 1⟩ : Sys Nat) ∧
    ((([] : List (Option Nat)).filterMap id).length + [7].length ≤ 1 ∧
      ((0 : Nat) = 0 → (([] : List (Option Nat)).filterMap id).length + [7].length = 1)) :=
  ⟨rfl, c5_destructor_once 7 [Op.drop] ⟨none, 0, [], [7], 1⟩ rfl⟩

/-- C6: the heap block of the cell is reclaimed exactly once, exactly when
the last handle is dropped or consumed, and never while a handle remains
live. -/
theorem c6_free_exactly_once {T : Type} (v : T) (ops : List Op) (s : Sys T)
    (h : run v ops = .ok s) :
    (s.handles ≠ 0 → s.frees = 0 ∧ ∃ inner, s.cell = some inner) ∧
    (s.handles = 0 → s.frees = 1 ∧ s.cell = none) := by
  rcases run_inv v ops s h with ⟨inner, hcell, habs, hfrees, hdisj⟩ | ⟨hcell, hh, hfrees, _⟩
  · have hne : inner.ref_count ≠ 0 := by rcases hdisj with ⟨h1, _⟩ | ⟨h1, _⟩ <;> omega
    exact ⟨fun _ => ⟨hfrees, inner, hcell⟩, fun h0 => absurd habs (by omega)⟩
  · exact ⟨fun hne => absurd hh hne, fun _ => ⟨hfrees, hcell⟩⟩

/-- C6 witness: clone then two drops free the cell exactly once at the
second drop. -/
theorem c6_witness :
    run 7 [Op.clone, Op.drop, Op.drop] = .ok (⟨none, 0, [], [7], 1⟩ : Sys Nat) ∧
    (((0 : Nat) ≠ 0 → (1 : Nat) = 0 ∧ ∃ inner, (none : Option (Inner Nat)) = some inner) ∧
      ((0 : Nat) = 0 → (1 : Nat) = 1 ∧ (none : Option (Inner Nat)) = none)) :=
  ⟨rfl, c6_free_exactly_once 7 [Op.clone, Op.drop, Op.drop]
    ⟨none, 0, [], [7], 1⟩ rfl⟩

/-- C7: in every reachable state the counter magnitude equals the number
of live handles and the counter is never zero while the cell is allocated;
a live handle always finds the cell allocated, and every operation run
from a reachable state either succeeds or is refused for lack of a live
handle — in particular the zero-counter panic branches of take, drop and
clone are never reached. -/
theorem c7_counter_invariant {T : Type} (v : T) (ops : List Op) (s : Sys T)
    (h : run v ops = .ok s) :
    (∀ inner, s.cell = some inner →
      inner.ref_count ≠ 0 ∧ inner.ref_count.natAbs = s.handles) ∧
    (s.handles ≠ 0 → ∃ inner, s.cell = some inner) ∧
    (∀ op, (step s op = .error .noHandle ∧ s.handles = 0) ∨
      ∃ s2, step s op = .ok s2) := by
  have hInv := run_inv v ops s h
  refine ⟨?_, ?_, ?_⟩
  · intro inner hc
    rcases hInv with ⟨inner2, hcell, habs, _, hdisj⟩ | ⟨hcell, _, _, _⟩
    · rw [hc] at hcell
      cases hcell
      have : inner.ref_count ≠ 0 := by rcases hdisj with ⟨h1, _⟩ | ⟨h1, _⟩ <;> omega
      exact ⟨this, habs⟩
    · rw [hc] at hcell
      cases hcell
  · intro hne
    rcases hInv with ⟨inner, hcell, _, _, _⟩ | ⟨_, hh, _, _⟩
    · exact ⟨inner, hcell⟩
    · exact absurd hh hne
  · intro op
    rcases step_preserves v s op hInv with ⟨h0, herr⟩ | ⟨s2, hok, _⟩
    · exact Or.inl ⟨herr, h0⟩
    · exact Or.inr ⟨s2, hok⟩

/-- C7 witness: after a clone and one take, one handle remains on an
empty cell with counter -1. -/
theorem c7_witness :
    run 7 [Op.clone, Op.take] = .ok (⟨some ⟨-1, none⟩, 1, [some 7], [], 0⟩ : Sys Nat) ∧
    ((∀ inner, (some (⟨-1, none⟩ : Inner Nat)) = some inner →
        inner.ref_count ≠ 0 ∧ inner.ref_count.natAbs = 1) ∧
      ((1 : Nat) ≠ 0 → ∃ inner, (some (⟨-1, none⟩ : Inner Nat)) = some inner) ∧
      (∀ op, (step (⟨some ⟨-1, none⟩, 1, [some 7], [], 0⟩ : Sys Nat) op =
          .error .noHandle ∧ (1 : Nat) = 0) ∨
        ∃ s2, step (⟨some ⟨-1, none⟩, 1, [some 7], [], 0⟩ : Sys Nat) op = .ok s2)) :=
  ⟨rfl, c7_counter_invariant 7 [Op.clone, Op.take]
    ⟨some ⟨-1, none⟩, 1, [some 7], [], 0⟩ rfl⟩

/-- C8: `new` builds a cell with counter 1 and the slot holding the given
value, and the trace starts with exactly one live handle owning that sole
reference, nothing taken, nothing destroyed, nothing freed. -/
theorem c8_new_semantics {T : Type} (v : T) :
    new v = ⟨1, some v⟩ ∧
    initSys v = ⟨some ⟨1, some v⟩, 1, [], [], 0⟩ ∧
    0 < (new v).ref_count ∧
    (new v).ref_count.natAbs = (initSys v).handles :=
  ⟨rfl, rfl, by show (0 : Int) < 1; omega, rfl⟩

/-- C10: the zero-counter checks are part of the operational semantics of
all three operations: clone, take and drop each panic (rather than
proceed) when they observe a zero reference count. -/
theorem c10_zero_panics {T : Type} (val : Option T) :
    clone ⟨0, val⟩ = .error .panicZero ∧
    take ⟨0, val⟩ = .error .panicZero ∧
    drop ⟨0, val⟩ = .error .panicZero :=
  ⟨clone_zero _ rfl, take_zero _ rfl, drop_zero _ rfl⟩

end NonSync

namespace Sync

open NonSync

/-- C9: in the spec-modelled thread-shared variant, for every interleaving
of two threads that each call take on their own handle of a shared cell,
both threads finish, exactly one receives the value and the other receives
none, and the cell is freed exactly once. -/
theorem c9_concurrent_take {T : Type} (v : T) (sched : List Bool)
    (hlen : sched.length = 4) (hcnt : sched.count true = 2) :
    ∃ s, execFull v sched = some s ∧ s.pc1 = 2 ∧ s.pc2 = 2 ∧
      ((s.res1 = some v ∧ s.res2 = none) ∨ (s.res1 = none ∧ s.res2 = some v)) ∧
      s.frees = 1 ∧ s.cell = none := by
  match sched with
  | [a, b, c, d] =>
    cases a <;> cases b <;> cases c <;> cases d <;>
      first
      | exact absurd hcnt (by decide)
      | exact ⟨_, rfl, rfl, rfl, Or.inl ⟨rfl, rfl⟩, rfl, rfl⟩
      | exact ⟨_, rfl, rfl, rfl, Or.inr ⟨rfl, rfl⟩, rfl, rfl⟩

/-- C9 witness: the alternating schedule. -/
theorem c9_witness :
    ([true, false, true, false] : List Bool).length = 4 ∧
    ([true, false, true, false] : List Bool).count true = 2 ∧
    ∃ s, execFull 7 [true, false, true, false] = some s ∧ s.pc1 = 2 ∧ s.pc2 = 2 ∧
      ((s.res1 = some 7 ∧ s.res2 = none) ∨ (s.res1 = none ∧ s.res2 = some 7)) ∧
      s.frees = 1 ∧ s.cell = none :=
  ⟨rfl, rfl, c9_concurrent_take 7 [true, false, true, false] rfl rfl⟩

end Sync
